import Mathlib

/-!
Verification development for the `notion_to_md.py` converter.

The Python source is shallowly embedded below.  Dynamic dictionary access
(`d.get(k, default)`) becomes `Option` access with `getD`; the block table
(`recordMap.block`, a JSON object) becomes an association list preserving
insertion order (Python dicts iterate in insertion order); an uncaught
Python exception becomes the `PyRes.raised` result; the mutable converter
state (`visited_pages`, `page_data`) and a log of fetch attempts are
threaded explicitly as `St`.  Network download (`download_page`) and HTML
payload extraction (`extract_json_data`) are external collaborators and are
modelled as an environment `Env` of functions; filesystem writes
(`save_content`, directory creation) have no observable effect on the
modelled state and are omitted; `slugify` is an external collaborator
modelled as a function field of `Config`.  Python recursion is bounded by a
fuel parameter; exhausting fuel models the interpreter recursion limit and
is reported as `PyRes.raised`.
-/

/-- A rich-text format marker as stored in a run's second element:
`'b'`, `'i'`, `'s'`, `'c'`, a link `['a', url]`, a bare `['a']`
(ignored by the code since `len(fmt) > 1` fails), or any other
unrecognised marker (ignored). -/
inductive Fmt where
  | b : Fmt
  | i : Fmt
  | s : Fmt
  | c : Fmt
  | a : String → Fmt
  | aBare : Fmt
  | other : Fmt
deriving DecidableEq, Repr

/-- One item of a rich-text property value.  An item is either a bare
string (`plain`), an empty list (`emptyList`), or a run
`[text, formats?]` where the optional second element is the format list
(`run text none` models both a singleton `[text]` and a `[text, x]`
whose second element is not a list, which the code treats alike). -/
inductive RichItem where
  | plain : String → RichItem
  | emptyList : RichItem
  | run : String → Option (List Fmt) → RichItem
deriving DecidableEq, Repr

/-- Apply one format marker to already-wrapped text, as in the
`for fmt in formats` loop of `extract_formatted_text`. -/
def applyFmt (text : String) : Fmt → String
  | .b => "**" ++ text ++ "**"
  | .i => "*" ++ text ++ "*"
  | .s => "~~" ++ text ++ "~~"
  | .c => "`" ++ text ++ "`"
  | .a url => "[" ++ text ++ "](" ++ url ++ ")"
  | .aBare => text
  | .other => text

/-- The per-item body of `extract_formatted_text`: non-list items are
skipped (`continue`), empty lists are skipped (`len(item) >= 1` fails),
and a run has its format markers applied successively in input order. -/
def formatItem : RichItem → Option String
  | .plain _ => none
  | .emptyList => none
  | .run text fmts =>
    some (match fmts with
      | none => text
      | some fs => fs.foldl applyFmt text)

/-- `extract_formatted_text`: render a rich-text property value to an
inline markdown string. -/
def extract_formatted_text (pv : List RichItem) : String :=
  if pv = [] then "" else String.join (pv.filterMap formatItem)

/-- The per-item body of `extract_text_from_property`: list items of
length at least one contribute their first element, bare strings
contribute themselves, empty lists are skipped. -/
def itemPlainText : RichItem → Option String
  | .plain s => some s
  | .emptyList => none
  | .run text _ => some text

/-- `extract_text_from_property`: plain-text extraction ignoring all
format markers. -/
def extract_text_from_property (pv : List RichItem) : String :=
  if pv = [] then "" else String.join (pv.filterMap itemPlainText)

/-- The block property map.  Each `.get(name, [])` in the source becomes
a field access; an absent property is the empty list. -/
structure Props where
  title : List RichItem := []
  caption : List RichItem := []
  source : List RichItem := []
  language : List RichItem := []
  description : List RichItem := []
deriving DecidableEq, Repr

/-- The inner block record `block_data['value']['value']`. -/
structure Block where
  type : Option String := none
  properties : Props := {}
  content : List String := []
  checked : Bool := false
  link : String := ""
deriving DecidableEq, Repr

/-- The empty dict `{}` default produced by `.get('value', {})`. -/
def emptyBlock : Block := {}

/-- The outer record `block_data['value']`: carries the `type` field read
by the root-page scan of `extract_page_content` and the inner `value`
record read by `process_block`. -/
structure OuterVal where
  type : Option String := none
  value : Option Block := none
deriving DecidableEq, Repr

/-- One entry of the `recordMap.block` table: an optional `value` record
and an optional top-level `spaceId` (read by the image branch via
`blocks.get(root_page_id, {}).get('spaceId', '')`). -/
structure BlockData where
  value : Option OuterVal := none
  spaceId : Option String := none
deriving DecidableEq, Repr

/-- The block table, `recordMap.block`, in insertion order. -/
abbrev BlockTable := List (String × BlockData)

/-- The `recordMap` object of the payload. -/
structure RecordMap where
  block : Option BlockTable := none
deriving DecidableEq, Repr

/-- The embedded JSON payload handed to `extract_page_content`. -/
structure Payload where
  recordMap : Option RecordMap := none
  pageId : Option String := none
deriving DecidableEq, Repr

/-- One entry of `self.page_data`: subpage title and parent root id. -/
structure PageInfo where
  title : String
  parent_id : String
deriving DecidableEq, Repr

/-- The dictionary returned by `extract_page_content`. -/
structure PageContent where
  title : String
  content : String
  subpages : List String
deriving DecidableEq, Repr

/-- The mutable converter state: `self.visited_pages`, `self.page_data`,
plus a log of every `download_page` call (one entry per fetch attempt,
in order). -/
structure St where
  visited : List String
  page_data : List (String × PageInfo)
  fetched : List String
deriving DecidableEq, Repr

/-- The state of a fresh `NotionToMarkdown` instance. -/
def initSt : St := ⟨[], [], []⟩

/-- Converter configuration: `single_mode` and the external `slugify`
collaborator (`sanitize_filename`). -/
structure Config where
  singleMode : Bool
  slug : String → String

/-- External collaborators: `download_page` (returns the raw HTML or
`None` after retry exhaustion) and `extract_json_data` (returns the
embedded payload or `None`). -/
structure Env where
  download : String → Option String
  parseJson : String → Option Payload

/-- The result of running a piece of Python code: either a normal value
or an uncaught exception propagating to the caller. -/
inductive PyRes (α : Type) where
  | raised : PyRes α
  | ok : α → PyRes α
deriving DecidableEq, Repr

/-- The shape of `self.process_page` as seen by its callers. -/
abbrev PP := String → Bool → St → PyRes (List PageContent) × St

/-- `s.lower()`, character by character. -/
def lowerStr (s : String) : String := String.mk (s.data.map Char.toLower)

/-- Python truthiness of an optional string: `None` and `''` are falsy. -/
def pyTruthy : Option String → Bool
  | none => false
  | some s => s ≠ ""

/-- First-match lookup in the block table (`blocks[id]` / `id in blocks`). -/
def lookupBlock : BlockTable → String → Option BlockData
  | [], _ => none
  | (k, v) :: rest, id => if k = id then some v else lookupBlock rest id

/-- The fallback root scan of `extract_page_content`: the first entry, in
insertion order, with a `value` record whose outer `type` is `'page'`. -/
def scanPage : BlockTable → Option String
  | [] => none
  | (k, bd) :: rest =>
    match bd.value with
    | some o => if o.type = some "page" then some k else scanPage rest
    | none => scanPage rest

/-- `block_data.get('value', {}).get('value', {})`. -/
def innerBlock (bd : BlockData) : Block :=
  (bd.value.bind OuterVal.value).getD emptyBlock

/-- `block_id.replace('-', '')`: removing every occurrence of the
single character `-`. -/
def stripHyphens (s : String) : String :=
  String.mk (s.data.filter fun ch => ch ≠ '-')

/-- Split a character list at the first occurrence of a separator,
returning the part before it and the part after it. -/
def breakOn (sep : List Char) : List Char → Option (List Char × List Char)
  | [] => none
  | ch :: rest =>
    if List.isPrefixOf sep (ch :: rest) then
      some ([], (ch :: rest).drop sep.length)
    else
      match breakOn sep rest with
      | none => none
      | some (before, after) => some (ch :: before, after)

/-- `scheme://netloc` of a URL, as produced by `urlparse(url)` followed by
`f"{scheme}://{netloc}"` (modelled for URLs of the shape
`scheme://host/path...`: the scheme is everything before the first `://`
and the netloc everything after it up to the next `/`; a URL without
`://` parses with empty scheme and netloc). -/
def domainOf (url : String) : String :=
  match breakOn "://".data url.data with
  | some (scheme, rest) =>
    String.mk scheme ++ "://" ++ String.mk (rest.takeWhile fun ch => ch ≠ '/')
  | none => "://"

/-- Hexadecimal digit for percent-encoding (uppercase, as `quote` emits). -/
def hexDigit (n : Nat) : Char :=
  if n < 10 then Char.ofNat (48 + n) else Char.ofNat (55 + n)

/-- Percent-encode one UTF-8 byte unless it is in `quote`'s always-safe
set (letters, digits, `_.-~`); the call passes `safe=''`. -/
def quoteByte (b : UInt8) : String :=
  let n := b.toNat
  if (65 ≤ n ∧ n ≤ 90) ∨ (97 ≤ n ∧ n ≤ 122) ∨ (48 ≤ n ∧ n ≤ 57) ∨
      n = 95 ∨ n = 46 ∨ n = 45 ∨ n = 126 then
    String.singleton (Char.ofNat n)
  else
    String.singleton '%' ++ String.singleton (hexDigit (n / 16)) ++
      String.singleton (hexDigit (n % 16))

/-- `urllib.parse.quote(s, '')` on a string argument. -/
def urlQuote (s : String) : String :=
  String.join (s.toUTF8.toList.map quoteByte)

/-- The unwrapping loop
`while source and type(source) == list: source = source[0] if len(source) > 0 else None`
applied to a property value.  `some s` is the scalar string the loop ends
on; `none` means the loop ended on the non-string residue `[]` (the
property was absent, or its first item was an empty list). -/
def unwrapSource : List RichItem → Option String
  | [] => none
  | item :: _ =>
    match item with
    | .plain s => some s
    | .emptyList => none
    | .run text _ => some text

/-- Interpolating the unwrap residue into an f-string: a string is itself,
the empty-list residue prints as `[]`. -/
def strOfResidue : Option String → String
  | some s => s
  | none => "[]"

/-- Python truthiness of the unwrap residue (`''` and `[]` are falsy). -/
def truthyResidue : Option String → Bool
  | some s => s ≠ ""
  | none => false

/-- Assignment `self.page_data[k] = v` on a dict kept in insertion order:
overwriting an existing key keeps its position. -/
def updatePD (pd : List (String × PageInfo)) (k : String) (v : PageInfo) :
    List (String × PageInfo) :=
  match pd with
  | [] => [(k, v)]
  | (k', v') :: rest =>
    if k' = k then (k, v) :: rest else (k', v') :: updatePD rest k v

/-- `' | '.join(cells)`. -/
def joinCells (cells : List String) : String := String.intercalate " | " cells

/-- The body-row padding loop
`while len(row) < len(header_row): row.append('')`. -/
def padRow (headerLen : Nat) (row : List String) : List String :=
  row ++ List.replicate (headerLen - row.length) ""

/-- The cell loop of the table branch: each cell id present in the table
contributes the rendered title of `blocks[cell_id]['value']['value']`. -/
def tableCells (blocks : BlockTable) (cellIds : List String) : List String :=
  cellIds.filterMap fun cid =>
    (lookupBlock blocks cid).map fun bd =>
      extract_formatted_text (innerBlock bd).properties.title

/-- The row loop of the table branch, with the `header_row` / `table_rows`
accumulators: a row whose cells are nonempty becomes the header if none is
set yet (`if not header_row and row_cells`), every other encountered row is
appended to the body. -/
def collectRows (blocks : BlockTable) :
    List String → List String → List (List String) →
    List String × List (List String)
  | [], header, rows => (header, rows)
  | childId :: rest, header, rows =>
    match lookupBlock blocks childId with
    | none => collectRows blocks rest header rows
    | some bd =>
      let rowCells := tableCells blocks (innerBlock bd).content
      if header = [] ∧ rowCells ≠ [] then
        collectRows blocks rest rowCells rows
      else
        collectRows blocks rest header (rows ++ [rowCells])

/-- Markdown assembly of the table branch: header line, separator of
`len(header_row)` dash cells, then each body row padded to the header
width; nothing is emitted when no header was found. -/
def mkTableMd (header : List String) (rows : List (List String)) :
    List String :=
  if header = [] then []
  else
    [String.intercalate "\n"
      (joinCells header ::
        joinCells (List.replicate header.length "---") ::
        rows.map fun row => joinCells (padRow header.length row))]

/-- The root-id resolution of `extract_page_content` (lines 287-293):
prefer a truthy `pageId` present in the table; otherwise scan; when the
scan also fails the original (possibly stale) `pageId` is kept. -/
def resolveRoot (pageId : Option String) (blocks : BlockTable) :
    Option String :=
  if pyTruthy pageId = false ∨ lookupBlock blocks (pageId.getD "") = none then
    match scanPage blocks with
    | some bid => some bid
    | none => pageId
  else pageId

/-- Exception propagation: `pyBind r f` continues with `f` on a normal
value and propagates a raised exception unchanged, keeping the state at
the raise point. -/
def pyBind {α β : Type} (r : PyRes α × St)
    (f : α → St → PyRes β × St) : PyRes β × St :=
  match r with
  | (.raised, s1) => (.raised, s1)
  | (.ok a, s1) => f a s1

/-- The shared child-block loop
`for id in ids: if id in blocks: content += process_block(...)`
(used by the toggle branch, the column branches, and
`extract_page_content`), with the per-block call abstracted as `pb`.
An exception in a child propagates. -/
def process_blocks (pb : String → BlockData → St → PyRes (List String) × St)
    (blocks : BlockTable) : List String → St → PyRes (List String) × St
  | [], st => (.ok [], st)
  | id :: rest, st =>
    match lookupBlock blocks id with
    | none => process_blocks pb blocks rest st
    | some bd =>
      pyBind (pb id bd st) fun lines st1 =>
        pyBind (process_blocks pb blocks rest st1) fun more st2 =>
          (.ok (lines ++ more), st2)

/-- The closed set of block type strings `process_block` dispatches on;
any other (or absent) `type` is `unknown` and renders to nothing. -/
inductive BlockType where
  | text | header | sub_header | sub_sub_header
  | bulleted_list | numbered_list | to_do | toggle
  | callout | quote | divider | code | image | bookmark
  | table | page | column_list | column | unknown
deriving DecidableEq, Repr

/-- Classify the `type` string of a block. -/
def blockTypeOf : Option String → BlockType
  | some "text" => .text
  | some "header" => .header
  | some "sub_header" => .sub_header
  | some "sub_sub_header" => .sub_sub_header
  | some "bulleted_list" => .bulleted_list
  | some "numbered_list" => .numbered_list
  | some "to_do" => .to_do
  | some "toggle" => .toggle
  | some "callout" => .callout
  | some "quote" => .quote
  | some "divider" => .divider
  | some "code" => .code
  | some "image" => .image
  | some "bookmark" => .bookmark
  | some "table" => .table
  | some "page" => .page
  | some "column_list" => .column_list
  | some "column" => .column
  | _ => .unknown

/-- The image branch of `process_block` (lines 175-189), which never
touches the converter state.  The `source` and `caption` properties are
unwrapped; `quote(source, '')` raises `TypeError` when the unwrap ends on
the non-string residue `[]`; otherwise the proxy image URL is built with
the root block's top-level `spaceId` and the (always truthy) URL string
guards the output lines. -/
def imageRes (blocks : BlockTable) (rootPageId blockId : String)
    (props : Props) : PyRes (List String) :=
  match unwrapSource props.source with
  | none => .raised
  | some src =>
    let caption := unwrapSource props.caption
    let spaceId :=
      match lookupBlock blocks rootPageId with
      | some bd => bd.spaceId.getD ""
      | none => ""
    let sourceUrl := "https://mask.notion.site/image/" ++ urlQuote src ++
      "?table=block&id=" ++ blockId ++ "&spaceId=" ++ spaceId ++
      "&width=1420&userId=&cache=v2"
    let captionStr := strOfResidue caption
    .ok (if sourceUrl ≠ "" then
          ["![" ++ captionStr ++ "](" ++ sourceUrl ++ ")"] ++
            (if truthyResidue caption then
              ["*" ++ captionStr ++ "*"] else [])
        else [])

/-- The type dispatch of `process_block`, on the inner block record
`block_data['value']['value']` (already defaulted to the empty dict).
`pb` runs one child block (the recursive `process_block` call at the
current recursion depth) and `pp` is `self.process_page` as invoked by
the single-mode page branch. -/
def dispatchBlock (pp : PP)
    (pb : String → BlockData → St → PyRes (List String) × St)
    (cfg : Config) (url rootPageId : String) (blocks : BlockTable)
    (blockId : String) (block : Block) (st : St) :
    PyRes (List String) × St :=
  match blockTypeOf block.type with
  | .text =>
    (.ok [extract_formatted_text block.properties.title], st)
  | .header =>
    (.ok ["# " ++ extract_formatted_text block.properties.title], st)
  | .sub_header =>
    (.ok ["## " ++ extract_formatted_text block.properties.title], st)
  | .sub_sub_header =>
    (.ok ["### " ++ extract_formatted_text block.properties.title], st)
  | .bulleted_list =>
    (.ok ["- " ++ extract_formatted_text block.properties.title], st)
  | .numbered_list =>
    (.ok ["1. " ++ extract_formatted_text block.properties.title], st)
  | .to_do =>
    let text := extract_formatted_text block.properties.title
    let checkbox := if block.checked then "[x]" else "[ ]"
    (.ok [checkbox ++ " " ++ text], st)
  | .toggle =>
    let text := extract_formatted_text block.properties.title
    pyBind (process_blocks pb blocks block.content st) fun toggleContent st1 =>
      let toggleContentStr := String.intercalate "\n\n" toggleContent
      (.ok ["<details>\n<summary>" ++ text ++ "</summary>\n\n" ++
        toggleContentStr ++ "\n</details>"], st1)
  | .callout =>
    (.ok ["> " ++ extract_formatted_text block.properties.title], st)
  | .quote =>
    (.ok ["> " ++ extract_formatted_text block.properties.title], st)
  | .divider => (.ok ["---"], st)
  | .code =>
    let code := extract_text_from_property block.properties.title
    let language := extract_text_from_property block.properties.language
    let language := if language ≠ "" then lowerStr language else ""
    (.ok ["```" ++ language ++ "\n" ++ code ++ "\n```"], st)
  | .image =>
    (imageRes blocks rootPageId blockId block.properties, st)
  | .bookmark =>
    let link := block.link
    let title := extract_formatted_text block.properties.title
    let description := extract_formatted_text block.properties.description
    (.ok (if link ≠ "" then
            ["[" ++ (if title ≠ "" then title else link) ++ "](" ++
              link ++ ")"] ++
              (if description ≠ "" then ["> " ++ description] else [])
          else []), st)
  | .table =>
    let hr := collectRows blocks block.content [] []
    (.ok (mkTableMd hr.1 hr.2), st)
  | .page =>
    let pageTitle := extract_formatted_text block.properties.title
    if cfg.singleMode then
      let subpageUrl := domainOf url ++ "/" ++ pageTitle ++ "-" ++
        stripHyphens blockId
      pyBind (pp subpageUrl false st) fun pagesContent st1 =>
        let lines :=
          match pagesContent with
          | [] => []
          | pc :: _ => ["# " ++ pageTitle, pc.content]
        (.ok lines,
          { st1 with
              page_data := updatePD st1.page_data blockId
                ⟨pageTitle, rootPageId⟩ })
    else
      (.ok ["[" ++ pageTitle ++ "](./" ++ cfg.slug pageTitle ++ "/" ++
          cfg.slug pageTitle ++ ".md)"],
        { st with
            page_data := updatePD st.page_data blockId
              ⟨pageTitle, rootPageId⟩ })
  | .column_list =>
    pyBind (process_blocks pb blocks block.content st) fun columnContent st1 =>
      (.ok (if columnContent = [] then []
            else [String.intercalate "\n\n" columnContent]), st1)
  | .column =>
    pyBind (process_blocks pb blocks block.content st) fun columnContent st1 =>
      (.ok (if columnContent = [] then []
            else [String.intercalate "\n\n" columnContent]), st1)
  | .unknown => (.ok [], st)

/-- `process_block`: render one block to a list of markdown strings,
threading the converter state.  A missing `'value'` key returns no
output; otherwise the dispatch runs on the inner block record, with
child blocks processed at one less recursion depth. -/
def process_block (pp : PP) :
    Nat → Config → Env → String → String → BlockTable → String →
    BlockData → St → PyRes (List String) × St
  | 0, _, _, _, _, _, _, _, st => (.raised, st)
  | n + 1, cfg, env, url, rootPageId, blocks, blockId, blockData, st =>
    match blockData.value with
    | none => (.ok [], st)
    | some outer =>
      dispatchBlock pp
        (fun id bd s =>
          process_block pp n cfg env url rootPageId blocks id bd s)
        cfg url rootPageId blocks blockId (outer.value.getD emptyBlock) st

/-- The tail of `extract_page_content` once the root id has resolved:
read the root block record, take its plain-text title, render its
content ids, and assemble the page dictionary (whose `subpages` are the
keys of `self.page_data` after rendering). -/
def extractRootContent (pp : PP) (fuel : Nat) (cfg : Config) (env : Env)
    (url : String) (blocks : BlockTable) (rootPageId : String) (st : St) :
    PyRes (Option PageContent) × St :=
  let rootBlock :=
    match lookupBlock blocks rootPageId with
    | some bd => innerBlock bd
    | none => emptyBlock
  let title := extract_text_from_property rootBlock.properties.title
  pyBind (process_blocks
      (fun id bd s =>
        process_block pp fuel cfg env url rootPageId blocks id bd s)
      blocks rootBlock.content st) fun contentLines st1 =>
    (.ok (some
      { title := title
        content := String.intercalate "\n\n" contentLines
        subpages := st1.page_data.map Prod.fst }), st1)

/-- `extract_page_content`: locate the root block, extract the title,
render the root's content ids, and return the page dictionary (`ok none`
models the Python `return None` failure). -/
def extract_page_content (pp : PP) (fuel : Nat) (cfg : Config) (env : Env)
    (url : String) (data : Payload) (st : St) :
    PyRes (Option PageContent) × St :=
  match data.recordMap with
  | none => (.ok none, st)
  | some rm =>
    match rm.block with
    | none => (.ok none, st)
    | some blocks =>
      if pyTruthy (resolveRoot data.pageId blocks) = false then (.ok none, st)
      else
        extractRootContent pp fuel cfg env url blocks
          ((resolveRoot data.pageId blocks).getD "") st

/-- The subpage recursion loop at the end of `process_page`: each subpage
id present in the current payload's block table is resolved to a URL from
the current page's domain, its title, and its id with hyphens stripped,
then recursively processed (the recursive call uses the default
`recursive=True`). -/
def process_subpages (pp : PP) (blocks : BlockTable) (pageUrl : String) :
    List String → St → PyRes (List PageContent) × St
  | [], st => (.ok [], st)
  | id :: rest, st =>
    match lookupBlock blocks id with
    | none => process_subpages pp blocks pageUrl rest st
    | some bd =>
      let subpageTitle :=
        extract_text_from_property (innerBlock bd).properties.title
      let subpageUrl := domainOf pageUrl ++ "/" ++ subpageTitle ++ "-" ++
        stripHyphens id
      pyBind (pp subpageUrl true st) fun pcs st1 =>
        pyBind (process_subpages pp blocks pageUrl rest st1) fun more st2 =>
          (.ok (pcs ++ more), st2)

/-- The body of `process_page` after the visited-set guard: the URL has
just been marked visited and the fetch attempt logged; download, payload
extraction and content extraction each short-circuit to an empty result
on failure, and in recursive mode the discovered subpages are crawled. -/
def pageFetch (pp : PP) (fuel : Nat) (cfg : Config) (env : Env)
    (url : String) (recursive : Bool) (st1 : St) :
    PyRes (List PageContent) × St :=
  match env.download url with
  | none => (.ok [], st1)
  | some html =>
    match env.parseJson html with
    | none => (.ok [], st1)
    | some data =>
      pyBind (extract_page_content pp fuel cfg env url data st1)
        fun opc st2 =>
          match opc with
          | none => (.ok [], st2)
          | some pageContent =>
            if recursive then
              pyBind (process_subpages pp
                  ((data.recordMap.bind RecordMap.block).getD []) url
                  pageContent.subpages st2) fun more st3 =>
                (.ok (pageContent :: more), st3)
            else (.ok [pageContent], st2)

/-- `process_page`: the crawl scheduler step.  An already-visited URL
returns an empty result with no fetch; otherwise the URL is marked
visited, the fetch attempt is logged, and download, payload extraction
and content extraction each short-circuit to an empty result on failure.
Filesystem output (`save_content`, `parent_path`) is not modelled. -/
def process_page :
    Nat → Config → Env → String → Bool → St → PyRes (List PageContent) × St
  | 0, _, _, _, _, st => (.raised, st)
  | n + 1, cfg, env, url, recursive, st =>
    if url ∈ st.visited then (.ok [], st)
    else
      pageFetch (fun u r s => process_page n cfg env u r s) n cfg env url
        recursive
        { st with visited := url :: st.visited,
                  fetched := st.fetched ++ [url] }

/-- Configuration for the default multi-file export, with the external
`slugify` collaborator instantiated by the identity. -/
def cfgMulti : Config := ⟨false, fun s => s⟩

/-- Configuration for single-file mode (`--single`), `slugify` again the
identity. -/
def cfgSingle : Config := ⟨true, fun s => s⟩

/-- A block-table entry for a `page` block with the given title (outer and
inner `type` both `'page'`, as in the real payload). -/
def mkPage (title : String) : BlockData :=
  { value := some
      { type := some "page"
        value := some
          { type := some "page"
            properties := { title := [.run title none] } } } }

/-- A block-table entry for a root `page` block with a content list. -/
def mkRoot (title : String) (content : List String) : BlockData :=
  { value := some
      { type := some "page"
        value := some
          { type := some "page"
            properties := { title := [.run title none] }
            content := content } } }

/-- Diamond page graph A→B, A→C, B→D, C→D for the crawl claims. -/
def payloadDiaA : Payload :=
  { pageId := some "a"
    recordMap := some ⟨some
      [("a", mkRoot "A" ["b1", "c1"]), ("b1", mkPage "B"),
        ("c1", mkPage "C")]⟩ }

/-- Diamond graph: page B, containing a page block for D. -/
def payloadDiaB : Payload :=
  { pageId := some "b1"
    recordMap := some ⟨some
      [("b1", mkRoot "B" ["d1"]), ("d1", mkPage "D")]⟩ }

/-- Diamond graph: page C, also containing a page block for D. -/
def payloadDiaC : Payload :=
  { pageId := some "c1"
    recordMap := some ⟨some
      [("c1", mkRoot "C" ["d1"]), ("d1", mkPage "D")]⟩ }

/-- Diamond graph: the shared page D, with no children. -/
def payloadDiaD : Payload :=
  { pageId := some "d1"
    recordMap := some ⟨some [("d1", mkRoot "D" [])]⟩ }

/-- Environment serving the diamond graph.  The subpage URLs are exactly
those `process_page` reconstructs: domain, title, `-`, id. -/
def diamondEnv : Env :=
  { download := fun u =>
      if u = "https://h/A" then some "A"
      else if u = "https://h/B-b1" then some "B"
      else if u = "https://h/C-c1" then some "C"
      else if u = "https://h/D-d1" then some "D"
      else none
    parseJson := fun h =>
      if h = "A" then some payloadDiaA
      else if h = "B" then some payloadDiaB
      else if h = "C" then some payloadDiaC
      else if h = "D" then some payloadDiaD
      else none }

/-- Two-page chain for the subpage-accumulation claim: page 1 contains a
page block `p1`; page 2 (the target of `p1`) contains a page block `p2`. -/
def blocksTwo1 : BlockTable :=
  [("r1", mkRoot "A" ["p1"]), ("p1", mkPage "b")]

def payloadTwo1 : Payload :=
  { pageId := some "r1", recordMap := some ⟨some blocksTwo1⟩ }

/-- Second page of the two-page chain; its own block table holds `r2`
and `p2` but not `p1`. -/
def blocksTwo2 : BlockTable :=
  [("r2", mkRoot "B2" ["p2"]), ("p2", mkPage "c")]

def payloadTwo2 : Payload :=
  { pageId := some "r2", recordMap := some ⟨some blocksTwo2⟩ }

/-- Environment serving the two-page chain (the grandchild URL fails to
download, which only logs a fetch attempt). -/
def twoPageEnv : Env :=
  { download := fun u =>
      if u = "https://h/r1" then some "P1"
      else if u = "https://h/b-p1" then some "P2"
      else none
    parseJson := fun h =>
      if h = "P1" then some payloadTwo1
      else if h = "P2" then some payloadTwo2
      else none }

/-- Three-level chain A ⊃ B ⊃ C for single-file mode: each page's content
is a single page block for the next. -/
def payloadChA : Payload :=
  { pageId := some "a"
    recordMap := some ⟨some
      [("a", mkRoot "A" ["b1"]), ("b1", mkPage "B")]⟩ }

/-- Chain page B, containing a page block for C. -/
def blocksChB : BlockTable :=
  [("b1", mkRoot "B" ["c1"]), ("c1", mkPage "C")]

def payloadChB : Payload :=
  { pageId := some "b1", recordMap := some ⟨some blocksChB⟩ }

/-- Chain page C, with no children. -/
def payloadChC : Payload :=
  { pageId := some "c1"
    recordMap := some ⟨some [("c1", mkRoot "C" [])]⟩ }

/-- Environment serving the three-level chain. -/
def chainEnv : Env :=
  { download := fun u =>
      if u = "https://h/A" then some "A"
      else if u = "https://h/B-b1" then some "B"
      else if u = "https://h/C-c1" then some "C"
      else none
    parseJson := fun h =>
      if h = "A" then some payloadChA
      else if h = "B" then some payloadChB
      else if h = "C" then some payloadChC
      else none }

/-- A table whose first child row has no cells and whose second child row
has one cell rendering to `X`. -/
def blocksC7 : BlockTable :=
  [("t", { value := some ⟨none, some
      { type := some "table", content := ["r1", "r2"] }⟩ }),
   ("r1", { value := some ⟨none, some
      { type := some "table_row", content := [] }⟩ }),
   ("r2", { value := some ⟨none, some
      { type := some "table_row", content := ["cx"] }⟩ }),
   ("cx", { value := some ⟨none, some
      { type := some "text",
        properties := { title := [.run "X" none] } }⟩ })]

/-- An environment in which every download fails. -/
def envEmpty : Env := ⟨fun _ => none, fun _ => none⟩

/-- A `process_page` stub for statements about rendering alone. -/
def ppStub : PP := fun _ _ s => (.ok [], s)

/-- A block table with no outer-`page`-typed entry and no entry keyed by
the payload's explicit page id `x`. -/
def blocksC3 : BlockTable :=
  [("y", { value := some { type := none, value := some {} } })]

/-- A payload whose explicit `pageId` is truthy but dangling, over
`blocksC3`, so that the fallback scan also fails. -/
def payloadC3 : Payload :=
  { recordMap := some ⟨some blocksC3⟩, pageId := some "x" }

/-- The cells of one table row when that row is present in the block
table (`None` when the row id dangles and the row loop skips it). -/
def rowCellsAt (blocks : BlockTable) (childId : String) :
    Option (List String) :=
  (lookupBlock blocks childId).map fun bd =>
    tableCells blocks (innerBlock bd).content

/-- The rows of a table block that are actually encountered by the row
loop (present in the block table), in order, as their cell lists. -/
def encounteredRows (blocks : BlockTable) (ids : List String) :
    List (List String) :=
  ids.filterMap (rowCellsAt blocks)

/-- Specification-side restatement of the header selection: the first
encountered row with at least one cell is the header; every other row —
including cell-less rows encountered before it — is a body row, in
order. -/
def splitHeader : List (List String) → List String × List (List String)
  | [] => ([], [])
  | r :: rs =>
    if r = [] then
      ((splitHeader rs).1, r :: (splitHeader rs).2)
    else (r, rs)

/-- The fetch-log invariant: no URL has been fetched twice, and every
fetched URL is in the visited set. -/
def FetchInv (s : St) : Prop :=
  s.fetched.Nodup ∧ ∀ u ∈ s.fetched, u ∈ s.visited

/-- State relation along any piece of converter execution: the visited
set only grows and the fetch-log invariant is preserved. -/
def StPred (s s' : St) : Prop :=
  (∀ u, u ∈ s.visited → u ∈ s'.visited) ∧ (FetchInv s → FetchInv s')

lemma predRefl (s : St) : StPred s s := ⟨fun _ h => h, id⟩

lemma predTrans {s1 s2 s3 : St} (h1 : StPred s1 s2) (h2 : StPred s2 s3) :
    StPred s1 s3 :=
  ⟨fun u hu => h2.1 u (h1.1 u hu), fun hi => h2.2 (h1.2 hi)⟩

lemma predPD (s : St) (pd : List (String × PageInfo)) :
    StPred s { s with page_data := pd } :=
  ⟨fun _ h => h, fun hi => hi⟩

lemma predFetch {s : St} {url : String} (h : url ∉ s.visited) :
    StPred s { s with
      visited := url :: s.visited,
      fetched := s.fetched ++ [url] } := by
  refine ⟨fun u hu => List.mem_cons_of_mem _ hu, fun hi => ⟨?_, ?_⟩⟩
  · have hnf : url ∉ s.fetched := fun hf => h (hi.2 url hf)
    refine List.nodup_append.mpr ⟨hi.1, List.nodup_singleton url, ?_⟩
    intro a ha hb
    rw [List.mem_singleton] at hb
    subst hb
    exact hnf ha
  · intro u hu
    rcases List.mem_append.mp hu with hu | hu
    · exact List.mem_cons_of_mem _ (hi.2 u hu)
    · rw [List.mem_singleton] at hu
      subst hu
      exact List.mem_cons_self _ _

lemma pred_pyBind {α β : Type} {st : St} {r : PyRes α × St}
    {f : α → St → PyRes β × St} (hr : StPred st r.2)
    (hf : ∀ a s, StPred s (f a s).2) :
    StPred st (pyBind r f).2 := by
  obtain ⟨res, s1⟩ := r
  cases res with
  | raised => exact hr
  | ok a => exact predTrans hr (hf a s1)

lemma pred_iteP {α : Type} {st : St} (p : Prop) [Decidable p]
    {x y : PyRes α × St} (hx : StPred st x.2) (hy : StPred st y.2) :
    StPred st (if p then x else y).2 := by
  by_cases h : p
  · rw [if_pos h]; exact hx
  · rw [if_neg h]; exact hy

lemma pred_process_blocks
    (pb : String → BlockData → St → PyRes (List String) × St)
    (hpb : ∀ id bd s, StPred s (pb id bd s).2) (blocks : BlockTable) :
    ∀ ids st, StPred st (process_blocks pb blocks ids st).2 := by
  intro ids
  induction ids with
  | nil => intro st; exact predRefl st
  | cons id rest ih =>
    intro st
    rw [process_blocks]
    split
    · exact ih st
    · exact pred_pyBind (hpb id _ st) fun lines s1 =>
        pred_pyBind (ih s1) fun more s2 => predRefl s2

lemma pred_dispatchBlock (pp : PP)
    (pb : String → BlockData → St → PyRes (List String) × St)
    (hpp : ∀ u r s, StPred s (pp u r s).2)
    (hpb : ∀ id bd s, StPred s (pb id bd s).2)
    (cfg : Config) (url rootPageId : String) (blocks : BlockTable)
    (blockId : String) (block : Block) (st : St) :
    StPred st (dispatchBlock pp pb cfg url rootPageId blocks blockId
      block st).2 := by
  rw [dispatchBlock]
  split
  all_goals try exact predRefl st
  -- toggle branch
  · exact pred_pyBind (pred_process_blocks pb hpb blocks _ st)
      fun tc s1 => predRefl s1
  -- page branch
  · exact pred_iteP _
      (pred_pyBind (hpp _ false st) fun pcs s1 => predPD s1 _)
      (predPD st _)
  -- column_list branch
  · exact pred_pyBind (pred_process_blocks pb hpb blocks _ st)
      fun cc s1 => predRefl s1
  -- column branch
  · exact pred_pyBind (pred_process_blocks pb hpb blocks _ st)
      fun cc s1 => predRefl s1

lemma pred_process_block (pp : PP)
    (hpp : ∀ u r s, StPred s (pp u r s).2) :
    ∀ fuel cfg env url root blocks id bd st,
      StPred st (process_block pp fuel cfg env url root blocks id bd st).2 := by
  intro fuel
  induction fuel with
  | zero => intro cfg env url root blocks id bd st; exact predRefl st
  | succ n ih =>
    intro cfg env url root blocks id bd st
    rw [process_block]
    split
    · exact predRefl st
    · exact pred_dispatchBlock pp _ hpp
        (fun id' bd' s => ih cfg env url root blocks id' bd' s)
        cfg url root blocks id _ st

lemma pred_extractRootContent (pp : PP)
    (hpp : ∀ u r s, StPred s (pp u r s).2)
    (fuel : Nat) (cfg : Config) (env : Env) (url : String)
    (blocks : BlockTable) (rootPageId : String) (st : St) :
    StPred st (extractRootContent pp fuel cfg env url blocks rootPageId
      st).2 := by
  rw [extractRootContent]
  exact pred_pyBind
    (pred_process_blocks _
      (fun id' bd' s => pred_process_block pp hpp fuel cfg env url
        rootPageId blocks id' bd' s)
      blocks _ st)
    fun lines s1 => predRefl s1

lemma pred_extract_page_content (pp : PP)
    (hpp : ∀ u r s, StPred s (pp u r s).2)
    (fuel : Nat) (cfg : Config) (env : Env) (url : String) (data : Payload)
    (st : St) :
    StPred st (extract_page_content pp fuel cfg env url data st).2 := by
  rw [extract_page_content]
  split
  · exact predRefl st
  split
  · exact predRefl st
  split
  · exact predRefl st
  exact pred_extractRootContent pp hpp fuel cfg env url _ _ st

lemma pred_process_subpages (pp : PP)
    (hpp : ∀ u r s, StPred s (pp u r s).2)
    (blocks : BlockTable) (pageUrl : String) :
    ∀ ids st, StPred st (process_subpages pp blocks pageUrl ids st).2 := by
  intro ids
  induction ids with
  | nil => intro st; exact predRefl st
  | cons id rest ih =>
    intro st
    rw [process_subpages]
    split
    · exact ih st
    · exact pred_pyBind (hpp _ true st) fun pcs s1 =>
        pred_pyBind (ih s1) fun more s2 => predRefl s2

lemma pred_pageFetch (pp : PP)
    (hpp : ∀ u r s, StPred s (pp u r s).2)
    (fuel : Nat) (cfg : Config) (env : Env) (url : String)
    (recursive : Bool) (st1 : St) :
    StPred st1 (pageFetch pp fuel cfg env url recursive st1).2 := by
  rw [pageFetch]
  split
  · exact predRefl st1
  split
  · exact predRefl st1
  refine pred_pyBind
    (pred_extract_page_content pp hpp fuel cfg env url _ st1) ?_
  intro opc s2
  match opc with
  | none => exact predRefl s2
  | some pageContent =>
    exact pred_iteP _
      (pred_pyBind (pred_process_subpages pp hpp _ url _ s2)
        fun more s3 => predRefl s3)
      (predRefl s2)

lemma pred_process_page :
    ∀ fuel cfg env url recursive st,
      StPred st (process_page fuel cfg env url recursive st).2 := by
  intro fuel
  induction fuel with
  | zero => intro cfg env url recursive st; exact predRefl st
  | succ n ih =>
    intro cfg env url recursive st
    rw [process_page]
    split
    · exact predRefl st
    rename_i hvis
    exact predTrans (predFetch hvis)
      (pred_pageFetch _ (fun u r s => ih cfg env u r s) n cfg env url
        recursive _)

lemma strJoin_append (l1 l2 : List String) :
    String.join (l1 ++ l2) = String.join l1 ++ String.join l2 := by
  simp only [String.join_eq, List.map_append, List.flatten_append]
  rfl

lemma eft_eq_join (pv : List RichItem) :
    extract_formatted_text pv = String.join (pv.filterMap formatItem) := by
  cases pv <;> rfl

lemma pyBind_ok_eq {α β : Type} {r : PyRes α × St}
    {f : α → St → PyRes β × St} {b : β} {st' : St}
    (h : pyBind r f = (.ok b, st')) :
    ∃ a s1, r = (.ok a, s1) ∧ f a s1 = (.ok b, st') := by
  obtain ⟨res, s1⟩ := r
  cases res with
  | raised => exact absurd h (by simp [pyBind])
  | ok a => exact ⟨a, s1, rfl, h⟩

lemma pyBind_fst_ok {α β : Type} {r : PyRes α × St}
    {f : α → St → PyRes β × St} {b : β}
    (h : (pyBind r f).1 = .ok b) :
    ∃ a s1, r = (.ok a, s1) ∧ (f a s1).1 = .ok b := by
  obtain ⟨res, s1⟩ := r
  cases res with
  | raised => exact absurd h (by simp [pyBind])
  | ok a => exact ⟨a, s1, rfl, h⟩

lemma extractRootContent_fst_ne_none (pp : PP) (fuel : Nat) (cfg : Config)
    (env : Env) (url : String) (blocks : BlockTable) (rootPageId : String)
    (st : St) :
    (extractRootContent pp fuel cfg env url blocks rootPageId st).1 ≠
      .ok none := by
  intro h
  rw [extractRootContent] at h
  obtain ⟨lines, s1, _, hf⟩ := pyBind_fst_ok h
  simp at hf

lemma collectRows_found (blocks : BlockTable) :
    ∀ (ids : List String) (header : List String)
      (rows : List (List String)), header ≠ [] →
      collectRows blocks ids header rows =
        (header, rows ++ encounteredRows blocks ids) := by
  intro ids
  induction ids with
  | nil => intro header rows _; simp [collectRows, encounteredRows]
  | cons id rest ih =>
    intro header rows hne
    rw [collectRows]
    cases hlk : lookupBlock blocks id with
    | none =>
      rw [ih header rows hne]
      simp [encounteredRows, rowCellsAt, hlk]
    | some bd =>
      dsimp only
      have hcond : ¬(header = [] ∧
          tableCells blocks (innerBlock bd).content ≠ []) :=
        fun hc => hne hc.1
      rw [if_neg hcond, ih header _ hne]
      simp [encounteredRows, rowCellsAt, hlk]

lemma collectRows_spec (blocks : BlockTable) :
    ∀ (ids : List String) (rows : List (List String)),
      collectRows blocks ids [] rows =
        ((splitHeader (encounteredRows blocks ids)).1,
          rows ++ (splitHeader (encounteredRows blocks ids)).2) := by
  intro ids
  induction ids with
  | nil => intro rows; simp [collectRows, encounteredRows, splitHeader]
  | cons id rest ih =>
    intro rows
    rw [collectRows]
    cases hlk : lookupBlock blocks id with
    | none =>
      rw [ih rows]
      simp [encounteredRows, rowCellsAt, hlk]
    | some bd =>
      dsimp only
      by_cases hcell : tableCells blocks (innerBlock bd).content = []
      · have hcond : ¬(([] : List String) = [] ∧
            tableCells blocks (innerBlock bd).content ≠ []) :=
          fun hc => hc.2 hcell
        rw [if_neg hcond, ih (rows ++ [tableCells blocks (innerBlock bd).content])]
        simp [encounteredRows, rowCellsAt, hlk, hcell, splitHeader]
      · have hcond : (([] : List String) = [] ∧
            tableCells blocks (innerBlock bd).content ≠ []) := ⟨rfl, hcell⟩
        rw [if_pos hcond,
          collectRows_found blocks rest _ rows hcell]
        simp [encounteredRows, rowCellsAt, hlk, splitHeader, hcell]

/-- Claim C5 counterexample: two rich-text runs with the same text and
the same set of format markers, appearing in different input orders,
render to different strings (`bold` then `code` versus `code` then
`bold`), so rendering is not a function of the marker set alone. -/
theorem c5_counterexample :
    extract_formatted_text [.run "T" (some [.b, .c])] = "`**T**`" ∧
    extract_formatted_text [.run "T" (some [.c, .b])] = "**`T`**" ∧
    List.Perm [Fmt.b, Fmt.c] [Fmt.c, Fmt.b] ∧
    extract_formatted_text [.run "T" (some [.b, .c])] ≠
      extract_formatted_text [.run "T" (some [.c, .b])] :=
  ⟨rfl, rfl, by decide, by decide⟩

/-- Claim C5 amended: a run carrying no format markers renders to its
text unchanged; a run carrying markers has the wrappings applied
successively in the order the markers appear in the input, each later
marker wrapping the already-wrapped text (so two runs with the same
markers in the same order render identically, but differing input orders
may differ); runs are concatenated with no separator. -/
theorem c5_amended :
    (∀ t : String, extract_formatted_text [.run t none] = t ∧
      extract_formatted_text [.run t (some [])] = t) ∧
    (∀ (t : String) (fs : List Fmt),
      extract_formatted_text [.run t (some fs)] = fs.foldl applyFmt t) ∧
    (∀ xs ys : List RichItem,
      extract_formatted_text (xs ++ ys) =
        extract_formatted_text xs ++ extract_formatted_text ys) := by
  refine ⟨fun t => ⟨?_, ?_⟩, fun t fs => ?_, fun xs ys => ?_⟩
  · simp [extract_formatted_text, formatItem, String.join]
  · simp [extract_formatted_text, formatItem, String.join]
  · simp [extract_formatted_text, formatItem, String.join]
  · rw [eft_eq_join, eft_eq_join, eft_eq_join, List.filterMap_append,
      strJoin_append]

/-- Claim C8: a `numbered_list` block always renders to the single line
`1. ` followed by its rendered title (the ordinal is never incremented),
and a `bulleted_list` block to `- ` followed by its rendered title,
for every table, state, mode and position. -/
theorem c8_list_markers :
    ∀ (pp : PP) (fuel : Nat) (cfg : Config) (env : Env)
      (url root blockId : String) (blocks : BlockTable)
      (ot sp : Option String) (props : Props) (cont : List String)
      (chk : Bool) (lnk : String) (st : St),
      process_block pp (fuel + 1) cfg env url root blocks blockId
          ⟨some ⟨ot, some ⟨some "numbered_list", props, cont, chk, lnk⟩⟩, sp⟩
          st =
        (.ok ["1. " ++ extract_formatted_text props.title], st) ∧
      process_block pp (fuel + 1) cfg env url root blocks blockId
          ⟨some ⟨ot, some ⟨some "bulleted_list", props, cont, chk, lnk⟩⟩, sp⟩
          st =
        (.ok ["- " ++ extract_formatted_text props.title], st) := by
  intro pp fuel cfg env url root blockId blocks ot sp props cont chk lnk st
  exact ⟨rfl, rfl⟩

/-- Claim C1 (code bug): rendering an image block whose `source` property
is absent — or never unwraps to a scalar string — raises, for every
state, table and configuration: the unwrap loop leaves the empty-list
residue and `quote(source, '')` raises `TypeError` on it, contradicting
the guarantee that malformed optional fields degrade without error. -/
theorem c1_image_absent_source_raises :
    ∀ (pp : PP) (fuel : Nat) (cfg : Config) (env : Env)
      (url root blockId : String) (blocks : BlockTable)
      (ot sp : Option String)
      (title caption language description : List RichItem)
      (cont : List String) (chk : Bool) (lnk : String) (st : St),
      process_block pp (fuel + 1) cfg env url root blocks blockId
          ⟨some ⟨ot, some ⟨some "image",
            ⟨title, caption, [], language, description⟩, cont, chk, lnk⟩⟩,
            sp⟩ st =
        (.raised, st) ∧
      process_block pp (fuel + 1) cfg env url root blocks blockId
          ⟨some ⟨ot, some ⟨some "image",
            ⟨title, caption, [.emptyList], language, description⟩, cont,
              chk, lnk⟩⟩, sp⟩ st =
        (.raised, st) := by
  intro pp fuel cfg env url root blockId blocks ot sp title caption
    language description cont chk lnk st
  exact ⟨rfl, rfl⟩

/-- Claim C7 counterexample: in `blocksC7` the first child row `r1` is
encountered with zero cells; it does not become the header — the second
row's cells `["X"]` do — and the cell-less first row is emitted as a
body row after the header, so the rendered table is `X\n---\n`. -/
theorem c7_counterexample :
    rowCellsAt blocksC7 "r1" = some [] ∧
    encounteredRows blocksC7 ["r1", "r2"] = [[], ["X"]] ∧
    collectRows blocksC7 ["r1", "r2"] [] [] = (["X"], [[]]) ∧
    (collectRows blocksC7 ["r1", "r2"] [] []).1 ≠
      (encounteredRows blocksC7 ["r1", "r2"]).headD [] ∧
    process_block ppStub 2 cfgMulti envEmpty "u" "rt" blocksC7 "t"
        ((lookupBlock blocksC7 "t").getD {}) initSt =
      (.ok ["X\n---\n"], initSt) := by
  refine ⟨rfl, rfl, rfl, by decide, rfl⟩

/-- Claim C7 amended: the first child row encountered **with at least one
resolvable cell** becomes the header row; all other encountered rows —
including cell-less rows appearing before the header — are body rows in
order; every body row shorter than the header is padded with empty cells
to the header width, and the separator row has exactly as many dash
cells as the header has cells. -/
theorem c7_table_amended :
    (∀ (blocks : BlockTable) (ids : List String),
      collectRows blocks ids [] [] =
        splitHeader (encounteredRows blocks ids)) ∧
    (∀ (header : List String) (rows : List (List String)), header ≠ [] →
      mkTableMd header rows =
        [String.intercalate "\n"
          (joinCells header ::
            joinCells (List.replicate header.length "---") ::
            rows.map fun row => joinCells (padRow header.length row))]) ∧
    (∀ (headerLen : Nat) (row : List String), row.length ≤ headerLen →
      (padRow headerLen row).length = headerLen) ∧
    (∀ header : List String,
      (List.replicate header.length "---").length = header.length) := by
  refine ⟨fun blocks ids => ?_, fun header rows h => ?_,
    fun headerLen row h => ?_, fun header => ?_⟩
  · rw [collectRows_spec blocks ids []]
    simp
  · rw [mkTableMd, if_neg h]
  · simp [padRow]
    omega
  · simp

/-- Claim C7 witness: a concrete two-cell header with a one-cell body
row is padded to two cells and gets a two-dash separator. -/
theorem c7_table_amended_witness :
    mkTableMd ["A", "B"] [["x"]] = ["A | B\n--- | ---\nx | "] ∧
    (padRow 2 ["x"]).length = 2 ∧
    collectRows blocksC7 ["r1", "r2"] [] [] =
      splitHeader (encounteredRows blocksC7 ["r1", "r2"]) := by
  refine ⟨?_, c7_table_amended.2.2.1 2 ["x"] (by decide),
    c7_table_amended.1 blocksC7 ["r1", "r2"]⟩
  rw [c7_table_amended.2.1 ["A", "B"] [["x"]] (by decide)]
  rfl

/-- Claim C10: a body row with more cells than the header is emitted with
all of its cells intact — padding appends nothing, the emitted body line
is the join of the full row, and the row has more cells than the
separator row. -/
theorem c10_wide_body_rows :
    ∀ (header : List String) (rows : List (List String))
      (row : List String), row ∈ rows → header.length < row.length →
      header ≠ [] →
      padRow header.length row = row ∧
      joinCells row ∈ rows.map (fun r => joinCells (padRow header.length r)) ∧
      mkTableMd header rows =
        [String.intercalate "\n"
          (joinCells header ::
            joinCells (List.replicate header.length "---") ::
            rows.map fun r => joinCells (padRow header.length r))] ∧
      (List.replicate header.length "---").length < row.length := by
  intro header rows row hmem hlt hne
  have hpad : padRow header.length row = row := by
    simp [padRow, Nat.sub_eq_zero_of_le (Nat.le_of_lt hlt)]
  refine ⟨hpad, ?_, by rw [mkTableMd, if_neg hne], by simpa using hlt⟩
  exact List.mem_map.mpr ⟨row, hmem, by rw [hpad]⟩

/-- Claim C10 witness: a one-cell header with a two-cell body row emits
the body row intact and wider than the separator. -/
theorem c10_wide_body_rows_witness :
    padRow 1 ["x", "y"] = ["x", "y"] ∧
    mkTableMd ["A"] [["x", "y"]] = ["A\n---\nx | y"] ∧
    (List.replicate (List.length ["A"]) "---").length < 2 := by
  have h := c10_wide_body_rows ["A"] [["x", "y"]] ["x", "y"]
    (by decide) (by decide) (by decide)
  exact ⟨h.1, by rw [h.2.2.1]; rfl, h.2.2.2⟩

/-- Claim C2 counterexample: crawling two chained pages in one run, the
second page's `subpages` is `["p1", "p2"]` — it contains `p1`, a page
block discovered while rendering the *first* page, which is not even
present in the second page's block table. -/
theorem c2_counterexample :
    (process_page 20 cfgMulti twoPageEnv "https://h/r1" true initSt).1 =
      .ok [⟨"A", "[b](./b/b.md)", ["p1"]⟩,
           ⟨"B2", "[c](./c/c.md)", ["p1", "p2"]⟩] ∧
    lookupBlock blocksTwo2 "p1" = none := by
  exact ⟨by decide, rfl⟩

/-- Claim C2 amended: the `subpages` of the returned `PageContent` are
the keys of the run-wide `page_data` registry as of the end of that
page's rendering — so they include page identifiers accumulated from
previously extracted pages in the same run, not only the page blocks
discovered while rendering this page. -/
theorem c2_subpages_amended :
    ∀ (pp : PP) (fuel : Nat) (cfg : Config) (env : Env) (url : String)
      (data : Payload) (st st' : St) (pc : PageContent),
      extract_page_content pp fuel cfg env url data st =
        (.ok (some pc), st') →
      pc.subpages = st'.page_data.map Prod.fst := by
  intro pp fuel cfg env url data st st' pc h
  rw [extract_page_content] at h
  split at h
  · exact absurd h (by simp)
  split at h
  · exact absurd h (by simp)
  split at h
  · exact absurd h (by simp)
  rw [extractRootContent] at h
  obtain ⟨lines, s1, _, hf⟩ := pyBind_ok_eq h
  simp only [Prod.mk.injEq, PyRes.ok.injEq, Option.some.injEq] at hf
  obtain ⟨h1, h2⟩ := hf
  subst h2
  rw [← h1]

/-- Claim C2 witness: extracting the first chain page from a fresh state
yields `subpages = ["p1"]`, the keys of the registry it just filled. -/
theorem c2_subpages_amended_witness :
    (⟨"A", "[b](./b/b.md)", ["p1"]⟩ : PageContent).subpages =
      (⟨[], [("p1", ⟨"b", "r1"⟩)], []⟩ : St).page_data.map Prod.fst := by
  exact c2_subpages_amended ppStub 2 cfgMulti envEmpty "https://h/r1"
    payloadTwo1 initSt ⟨[], [("p1", ⟨"b", "r1"⟩)], []⟩
    ⟨"A", "[b](./b/b.md)", ["p1"]⟩ (by decide)

/-- Claim C3 counterexample: a payload whose explicit page id `x` is
truthy but resolves to no block, over a table in which the fallback scan
also finds no page block, does **not** fail: the stale id is kept and an
empty page dictionary is returned instead of `None`. -/
theorem c3_counterexample :
    pyTruthy (payloadC3.pageId) = true ∧
    lookupBlock blocksC3 "x" = none ∧
    scanPage blocksC3 = none ∧
    (extract_page_content ppStub 2 cfgMulti envEmpty "u" payloadC3
        initSt).1 = .ok (some ⟨"", "", []⟩) ∧
    (.ok (some (⟨"", "", []⟩ : PageContent)) : PyRes (Option PageContent))
      ≠ .ok none := by
  refine ⟨rfl, rfl, rfl, rfl, by decide⟩

/-- Claim C3 amended: extraction fails (returns `None`) if and only if
the payload has no record map, the record map has no block table, or the
resolved root id — the explicit `pageId` when truthy and present, else
the first scanned outer-`page` block, else the stale explicit id — is
absent or empty; a truthy-but-dangling explicit id with a failed scan is
kept and yields an empty page, not a failure. -/
theorem c3_failure_amended :
    ∀ (pp : PP) (fuel : Nat) (cfg : Config) (env : Env) (url : String)
      (data : Payload) (st : St),
      (extract_page_content pp fuel cfg env url data st).1 = .ok none ↔
        data.recordMap = none ∨
        (∃ rm, data.recordMap = some rm ∧ rm.block = none) ∨
        (∃ rm blocks, data.recordMap = some rm ∧ rm.block = some blocks ∧
          pyTruthy (resolveRoot data.pageId blocks) = false) := by
  intro pp fuel cfg env url data st
  obtain ⟨orm, pid⟩ := data
  rw [extract_page_content]
  cases orm with
  | none => simp
  | some rm =>
    obtain ⟨ob⟩ := rm
    cases ob with
    | none => simp
    | some blocks =>
      dsimp only
      by_cases hroot : pyTruthy (resolveRoot pid blocks) = false
      · rw [if_pos hroot]
        simp [hroot]
      · rw [if_neg hroot]
        constructor
        · intro h
          exact absurd h
            (extractRootContent_fst_ne_none pp fuel cfg env url blocks _ st)
        · intro h
          exfalso
          rcases h with h | ⟨rm', hrm, hb⟩ | ⟨rm', blocks', hrm, hb, ht⟩
          · simp at h
          · simp only [Option.some.injEq] at hrm
            subst hrm
            simp at hb
          · simp only [Option.some.injEq] at hrm
            subst hrm
            simp only [Option.some.injEq] at hb
            subst hb
            exact hroot ht

/-- Claim C4: the crawl never fetches a URL twice in one run — the
fetch-log invariant is preserved by every `process_page` call, an
already-visited URL returns an empty result with no fetch, every run
from a fresh state has a duplicate-free fetch log, and in the diamond
graph A→B, A→C, B→D, C→D the shared page D is fetched exactly once. -/
theorem c4_at_most_once :
    (∀ (fuel : Nat) (cfg : Config) (env : Env) (url : String)
       (recursive : Bool) (st : St), FetchInv st →
      FetchInv (process_page fuel cfg env url recursive st).2) ∧
    (∀ (fuel : Nat) (cfg : Config) (env : Env) (url : String)
       (recursive : Bool) (st : St), url ∈ st.visited →
      process_page (fuel + 1) cfg env url recursive st = (.ok [], st)) ∧
    (∀ (fuel : Nat) (cfg : Config) (env : Env) (url : String)
       (recursive : Bool),
      ((process_page fuel cfg env url recursive initSt).2).fetched.Nodup) ∧
    (process_page 40 cfgMulti diamondEnv "https://h/A" true
        initSt).2.fetched.count "https://h/D-d1" = 1 := by
  refine ⟨fun fuel cfg env url recursive st hinv =>
    (pred_process_page fuel cfg env url recursive st).2 hinv,
    fun fuel cfg env url recursive st h => ?_,
    fun fuel cfg env url recursive => ?_, by decide⟩
  · rw [process_page, if_pos h]
  · exact ((pred_process_page fuel cfg env url recursive initSt).2
      ⟨List.nodup_nil, fun u hu => absurd hu (List.not_mem_nil u)⟩).1

/-- Claim C4 witness: the invariant transported through a concrete run,
and the no-fetch guard at a concrete visited URL. -/
theorem c4_at_most_once_witness :
    FetchInv (process_page 3 cfgMulti diamondEnv "https://h/A" true
      initSt).2 ∧
    process_page 1 cfgMulti diamondEnv "https://h/A" true
        ⟨["https://h/A"], [], []⟩ =
      (.ok [], ⟨["https://h/A"], [], []⟩) :=
  ⟨c4_at_most_once.1 3 cfgMulti diamondEnv "https://h/A" true initSt
      ⟨List.nodup_nil, fun u hu => absurd hu (List.not_mem_nil u)⟩,
    c4_at_most_once.2.1 0 cfgMulti diamondEnv "https://h/A" true
      ⟨["https://h/A"], [], []⟩ (by decide)⟩

/-- Claim C9: `process_page` marks the URL visited before attempting the
fetch — an already-visited URL yields an empty result with no state
change, a not-yet-visited URL ends up in the final visited set even when
the fetch or any extraction step fails (the environment is arbitrary),
and the visited set only ever grows, so a failed URL is never attempted
again in the same run. -/
theorem c9_visited_before_fetch :
    (∀ (fuel : Nat) (cfg : Config) (env : Env) (url : String)
       (recursive : Bool) (st : St), url ∈ st.visited →
      process_page (fuel + 1) cfg env url recursive st = (.ok [], st)) ∧
    (∀ (fuel : Nat) (cfg : Config) (env : Env) (url : String)
       (recursive : Bool) (st : St), url ∉ st.visited →
      url ∈ ((process_page (fuel + 1) cfg env url recursive st).2).visited) ∧
    (∀ (fuel : Nat) (cfg : Config) (env : Env) (url : String)
       (recursive : Bool) (st : St) (u : String), u ∈ st.visited →
      u ∈ ((process_page fuel cfg env url recursive st).2).visited) := by
  refine ⟨fun fuel cfg env url recursive st h => ?_,
    fun fuel cfg env url recursive st h => ?_,
    fun fuel cfg env url recursive st u hu =>
      (pred_process_page fuel cfg env url recursive st).1 u hu⟩
  · rw [process_page, if_pos h]
  · rw [process_page, if_neg h]
    exact (pred_pageFetch _
        (fun u r s => pred_process_page fuel cfg env u r s)
        fuel cfg env url recursive _).1 url (List.mem_cons_self _ _)

/-- Claim C9 witness: concrete instances — the guard leaves state
untouched, and a URL whose download fails is still marked visited. -/
theorem c9_visited_before_fetch_witness :
    process_page 5 cfgMulti envEmpty "https://h/x" true
        ⟨["https://h/x"], [], []⟩ =
      (.ok [], ⟨["https://h/x"], [], []⟩) ∧
    "https://h/x" ∈ ((process_page 5 cfgMulti envEmpty "https://h/x" true
      initSt).2).visited ∧
    "https://h/x" ∈ ((process_page 7 cfgMulti envEmpty "https://h/y" true
      ⟨["https://h/x"], [], []⟩).2).visited :=
  ⟨c9_visited_before_fetch.1 4 cfgMulti envEmpty "https://h/x" true
      ⟨["https://h/x"], [], []⟩ (by decide),
    c9_visited_before_fetch.2.1 4 cfgMulti envEmpty "https://h/x" true
      initSt (by decide),
    c9_visited_before_fetch.2.2 7 cfgMulti envEmpty "https://h/y" true
      ⟨["https://h/x"], [], []⟩ "https://h/x" (by decide)⟩

/-- Claim C6 counterexample: in single-file mode on the chain A ⊃ B ⊃ C,
the page block for C sits *inside* the inlined subpage B's own content,
yet C is fetched: the nested fetch is not bounded to one level of
inlining. -/
theorem c6_counterexample :
    "https://h/C-c1" ∈
      (process_page 20 cfgSingle chainEnv "https://h/A" false
        initSt).2.fetched ∧
    (process_page 20 cfgSingle chainEnv "https://h/A" false initSt).1 =
      .ok [⟨"A", "# B\n\n# C\n\n", ["c1", "b1"]⟩] := by
  exact ⟨by decide, by decide⟩

/-- Claim C6 amended: in single-file mode a page block synchronously
fetches the subpage URL with `recursive=False` and, when the nested call
returns a page, inlines its body under a heading equal to the subpage
title with no link emitted, then records the page in the registry; but
`recursive=False` only disables the scheduler's subpage loop — page
blocks inside the inlined content still trigger further nested fetches,
so on the chain A ⊃ B ⊃ C all three pages are fetched. -/
theorem c6_single_inline_amended :
    (∀ (pp : PP) (n : Nat) (cfg : Config) (env : Env)
       (url root blockId : String) (blocks : BlockTable)
       (ot sp : Option String) (props : Props) (cont : List String)
       (chk : Bool) (lnk : String) (st st2 : St) (pc : PageContent)
       (rest : List PageContent),
      cfg.singleMode = true →
      pp (domainOf url ++ "/" ++ extract_formatted_text props.title ++
          "-" ++ stripHyphens blockId) false st = (.ok (pc :: rest), st2) →
      process_block pp (n + 1) cfg env url root blocks blockId
          ⟨some ⟨ot, some ⟨some "page", props, cont, chk, lnk⟩⟩, sp⟩ st =
        (.ok ["# " ++ extract_formatted_text props.title, pc.content],
          { st2 with
              page_data :=
                updatePD st2.page_data blockId
                  ⟨extract_formatted_text props.title, root⟩ })) ∧
    (process_page 20 cfgSingle chainEnv "https://h/A" false
        initSt).2.fetched =
      ["https://h/A", "https://h/B-b1", "https://h/C-c1"] := by
  constructor
  · intro pp n cfg env url root blockId blocks ot sp props cont chk lnk
      st st2 pc rest hsingle hpp
    rw [process_block]
    dsimp only [dispatchBlock, blockTypeOf, Option.getD]
    rw [hsingle]
    rw [if_pos rfl, hpp]
    rfl
  · decide

/-- Claim C6 witness: the page block for C inside page B's table,
rendered in single-file mode, inlines C's (empty) body under the `# C`
heading with no link and records C in the registry. -/
theorem c6_single_inline_amended_witness :
    process_block (fun u r s => process_page 7 cfgSingle chainEnv u r s)
        8 cfgSingle chainEnv "https://h/B-b1" "b1" blocksChB "c1"
        (mkPage "C") initSt =
      (.ok ["# C", ""],
        ⟨["https://h/C-c1"], [("c1", ⟨"C", "b1"⟩)], ["https://h/C-c1"]⟩) := by
  have h := c6_single_inline_amended.1
    (fun u r s => process_page 7 cfgSingle chainEnv u r s) 7 cfgSingle
    chainEnv "https://h/B-b1" "b1" "c1" blocksChB (some "page") none
    { title := [.run "C" none] } [] false "" initSt
    ⟨["https://h/C-c1"], [], ["https://h/C-c1"]⟩ ⟨"C", "", []⟩ []
    rfl (by decide)
  exact h
